import Mathlib

/-!
Verification development for the Foodie repository (React Native app).

The two components under specification are embedded shallowly:

* `FoodList` / `Page` (src/app/index.tsx, src/unnamed/part_001): the
  food-list screen. Its React state (`foodItems`, `loading`, `error`,
  `refreshing`) becomes the structure `ListState`; the async function
  `fetchFoodItems` becomes `fetchFoodItems : FetchResult → ListState →
  ListState`, applying the effect of one completed fetch (the parameter
  is the outcome of the awaited supabase query); UI events become a step
  function `listStep` and reachability `ReachableList`.

* `ChatBot` (src/app/components/ChatBot.tsx, src/unnamed/part_000): the
  chat assistant. Its React state (`messages`, `inputText`, `isLoading`)
  becomes `ChatState` (plus the `foodItems` prop and a ghost counter
  `inFlight` of issued-but-unresolved model requests, used only to state
  the at-most-one-in-flight property); `sendMessage` is split at its
  await point into `sendMessageStart` (the synchronous part up to the
  model call) and `sendMessageFinish` (the then/catch continuation);
  `formatResponseText` and `generatePrompt` are embedded directly.

Text is modelled as `List Char`. JavaScript `String.prototype.split`
with the separators used by the code (the single character `'\n'` and
the two-character marker `"**"`) is embedded as `splitOnCharJS` and
`splitOnPairJS`; `String.prototype.trim` as `jsTrim` (restricted to the
ASCII whitespace class, which covers every input the claims mention).
Numeric JSON fields (price, rating, calories) are modelled as `Nat`;
none of the verified claims depends on JavaScript float formatting.
-/

/-- Characters removed by `String.prototype.trim`, restricted to the
ASCII whitespace class (space, tab, carriage return, newline). -/
def jsWhitespace (c : Char) : Bool :=
  c = ' ' || c = '\t' || c = '\r' || c = '\n'

/-- JavaScript `s.trim()`: remove leading and trailing whitespace. -/
def jsTrim (s : List Char) : List Char :=
  ((s.dropWhile jsWhitespace).reverse.dropWhile jsWhitespace).reverse

/-- JavaScript `s.split(c)` for a single-character separator `c`
(used by the code as `text.split('\n')`). -/
def splitOnCharJS (c : Char) : List Char → List (List Char)
  | [] => [[]]
  | x :: r =>
    if x = c then
      [] :: splitOnCharJS c r
    else
      match splitOnCharJS c r with
      | [] => [[x]]
      | s :: ss => (x :: s) :: ss

/-- JavaScript `s.split(ab)` for a two-character separator, scanning
left to right (used by the code as `line.split('**')` with both
separator characters equal to an asterisk). -/
def splitOnPairJS (a b : Char) : List Char → List (List Char)
  | [] => [[]]
  | [x] => [[x]]
  | x :: y :: r =>
    if x = a ∧ y = b then
      [] :: splitOnPairJS a b r
    else
      match splitOnPairJS a b (y :: r) with
      | [] => [[x]]
      | s :: ss => (x :: s) :: ss

/-- Whether the two-character marker `ab` occurs anywhere in the text. -/
def hasPairMarker (a b : Char) : List Char → Bool
  | [] => false
  | [_] => false
  | x :: y :: r => (x = a && y = b) || hasPairMarker a b (y :: r)

/-- Join a list of lines, inserting `sep` between consecutive lines but
not after the last one — the rejoin pattern of `formatResponseText`
(ChatBot.tsx line 57: a newline is emitted exactly when the line is not
the last one). -/
def joinWithSep (sep : List Char) : List (List Char) → List Char
  | [] => []
  | [s] => s
  | s :: t :: r => s ++ sep ++ joinWithSep sep (t :: r)

theorem splitOnCharJS_ne_nil (c : Char) (l : List Char) :
    splitOnCharJS c l ≠ [] := by
  cases l with
  | nil => simp [splitOnCharJS]
  | cons x r =>
    simp only [splitOnCharJS]
    split
    · simp
    · cases h : splitOnCharJS c r <;> simp

theorem splitOnPairJS_ne_nil (a b : Char) (l : List Char) :
    splitOnPairJS a b l ≠ [] := by
  match l with
  | [] => simp [splitOnPairJS]
  | [x] => simp [splitOnPairJS]
  | x :: y :: r =>
    simp only [splitOnPairJS]
    split
    · simp
    · cases h : splitOnPairJS a b (y :: r) <;> simp

/-- Splitting on a character and rejoining with it is the identity:
the formatting transform preserves newlines on rejoin. -/
theorem joinWithSep_splitOnCharJS (c : Char) (l : List Char) :
    joinWithSep [c] (splitOnCharJS c l) = l := by
  induction l with
  | nil => simp [splitOnCharJS, joinWithSep]
  | cons x r ih =>
    simp only [splitOnCharJS]
    split
    · rename_i hx
      cases h : splitOnCharJS c r with
      | nil => exact absurd h (splitOnCharJS_ne_nil c r)
      | cons s ss =>
        rw [h] at ih
        subst hx
        simp [joinWithSep, ← ih]
    · cases h : splitOnCharJS c r with
      | nil => exact absurd h (splitOnCharJS_ne_nil c r)
      | cons s ss =>
        rw [h] at ih
        cases ss with
        | nil => simpa [joinWithSep] using congrArg (x :: ·) ih
        | cons t ts => simpa [joinWithSep] using congrArg (x :: ·) ih

/-- A text containing no occurrence of the marker is returned as a
single segment by the split. -/
theorem splitOnPairJS_of_no_marker (a b : Char) (l : List Char)
    (h : hasPairMarker a b l = false) :
    splitOnPairJS a b l = [l] := by
  induction l with
  | nil => simp [splitOnPairJS]
  | cons x r ih =>
    cases r with
    | nil => simp [splitOnPairJS]
    | cons y t =>
      simp only [hasPairMarker, Bool.or_eq_false_iff] at h
      obtain ⟨h1, h2⟩ := h
      simp only [splitOnPairJS]
      rw [if_neg, ih h2]
      intro hc
      simp only [Bool.and_eq_false_iff, decide_eq_false_iff_not] at h1
      rcases h1 with h1 | h1 <;> [exact h1 hc.1; exact h1 hc.2]

/-!
Data model of the food-list screen (src/app/index.tsx).
-/

/-- One catalog record, from the `FoodItem` interface of index.tsx.
Numeric JSON fields are modelled as `Nat`. -/
structure FoodItem where
  id : Nat
  name : List Char
  price : Nat
  rating : Nat
  veg : List Char
  calories : Nat
  image_url : List Char
deriving DecidableEq, Repr

/-- The React state of the `FoodList` component: the four `useState`
hooks of index.tsx lines 19-22. -/
structure ListState where
  items : List FoodItem
  loading : Bool
  error : Option (List Char)
  refreshing : Bool
deriving DecidableEq, Repr

/-- Initial state: `useState([])`, `useState(true)`, `useState(null)`,
`useState(false)`. -/
def initList : ListState :=
  { items := [], loading := true, error := none, refreshing := false }

/-- Outcome of the awaited supabase query inside `fetchFoodItems`: the
service answers with a data array, or the query fails (network error or
service-reported error object, both of which reach the catch block). -/
inductive FetchResult where
  | success (data : List FoodItem)
  | failure
deriving DecidableEq, Repr

/-- The constant user-displayable message set by the catch block of
`fetchFoodItems` (index.tsx line 45). -/
def fetchFailMsg : List Char :=
  "Failed to load food items. Please try again later.".toList

/-- Effect of one completed `fetchFoodItems` call (index.tsx lines
24-50) on the component state, given the outcome of the awaited query:
on success the try block stores the returned array verbatim via
`setFoodItems(data)`; on failure the catch block sets the constant
error message; the finally block clears both flags. No path touches
`error` on success, and no path touches `items` on failure. -/
def fetchFoodItems : FetchResult → ListState → ListState
  | .success data, st =>
    { st with items := data, loading := false, refreshing := false }
  | .failure, st =>
    { st with error := some fetchFailMsg, loading := false, refreshing := false }

/-- The `onRefresh` callback (index.tsx lines 56-59): sets the
refreshing flag and starts a fetch whose completion is a later event. -/
def onRefresh (st : ListState) : ListState :=
  { st with refreshing := true }

/-- UI events of the list screen. `complete r` is the resolution of an
in-flight `fetchFoodItems` call; `pullToRefresh` is the refresh
gesture; `retryTap` is the Retry/Refresh button, which calls
`fetchFoodItems` without changing any flag at start. -/
inductive ListEvent where
  | complete (r : FetchResult)
  | pullToRefresh
  | retryTap

/-- One step of the list screen. The pull-to-refresh gesture exists
only when the `FlatList` is rendered, which requires the full-screen
spinner branch `loading && !refreshing` (index.tsx line 75) to be
inactive; in that branch the event is a no-op. `retryTap` only spawns a
fetch, changing no state at start. -/
def listStep (st : ListState) : ListEvent → ListState
  | .complete r => fetchFoodItems r st
  | .pullToRefresh =>
    if st.loading && !st.refreshing then st else onRefresh st
  | .retryTap => st

/-- States of the list screen reachable from the initial state under
any interleaving of completions, pull-to-refresh and retry events. -/
inductive ReachableList : ListState → Prop
  | init : ReachableList initList
  | step (st : ListState) (e : ListEvent) :
      ReachableList st → ReachableList (listStep st e)

/-- State after a sequence of completed fetch attempts, starting from
the initial state. -/
def runFetches (rs : List FetchResult) : ListState :=
  rs.foldl (fun st r => fetchFoodItems r st) initList

/-- The stored sequence is sorted by identifier ascending (adjacent
ids non-decreasing). -/
def sortedByIdAsc : List FoodItem → Bool
  | [] => true
  | [_] => true
  | a :: b :: r => a.id ≤ b.id && sortedByIdAsc (b :: r)

/-- No two items of the sequence share an identifier. -/
def noDupIds : List FoodItem → Bool
  | [] => true
  | a :: r => !(r.any fun b => b.id == a.id) && noDupIds r

/-!
Chat assistant model (src/app/components/ChatBot.tsx).
-/

/-- One chat turn, from the `Message` interface of ChatBot.tsx. The
optional `isWelcomeMessage?` field is modelled as a `Bool` defaulting
to `false`, matching the falsy reading of `undefined` at the render
site. -/
structure Message where
  text : List Char
  isUser : Bool
  isWelcomeMessage : Bool := false
deriving DecidableEq, Repr

/-- The synthetic first transcript entry (ChatBot.tsx lines 67-71):
empty text, not from the user, flagged as the welcome message. -/
def welcomeMsg : Message :=
  { text := [], isUser := false, isWelcomeMessage := true }

/-- The React state of the `ChatBot` component (`messages`,
`inputText`, `isLoading`) together with the `foodItems` prop. The field
`inFlight` is ghost instrumentation, not present in the source: it
counts model requests that have been issued and not yet resolved, and
is used only to state the at-most-one-in-flight property. -/
structure ChatState where
  messages : List Message
  inputText : List Char
  isLoading : Bool
  foodItems : List FoodItem
  inFlight : Nat
deriving DecidableEq, Repr

/-- Initial chat state for a given `foodItems` prop: the transcript
holds exactly the welcome message, the input is empty, nothing is
loading. -/
def initChat (items : List FoodItem) : ChatState :=
  { messages := [welcomeMsg], inputText := [], isLoading := false,
    foodItems := items, inFlight := 0 }

/-- Serialization of one item inside `generatePrompt` (ChatBot.tsx
line 100). -/
def serializeItem (item : FoodItem) : List Char :=
  item.name ++ " (Price: ₹".toList ++ (Nat.repr item.price).toList
    ++ ", Rating: ".toList ++ (Nat.repr item.rating).toList
    ++ ", ".toList ++ item.veg
    ++ ", ".toList ++ (Nat.repr item.calories).toList
    ++ " kcal)".toList

/-- The prompt built by `generatePrompt` (ChatBot.tsx lines 98-109):
instruction preamble, one serialized item per line, the user question,
and a fixed closing instruction. -/
def generatePrompt (items : List FoodItem) (userMessage : List Char) : List Char :=
  "You are a helpful food assistant. Here is the list of available food items:\n".toList
    ++ joinWithSep ['\n'] (items.map serializeItem)
    ++ "\n\nUser question: ".toList
    ++ userMessage
    ++ "\n\nPlease help the user find the best food items based on their preferences. Consider price, rating, whether it\x27s veg/non-veg, and calories.".toList

/-- Outcome of the awaited model call inside `sendMessage`: a textual
reply, or a failure whose user-displayable description is
`error.message` when the thrown value is an `Error` and the fixed
fallback string otherwise. -/
inductive ModelOutcome where
  | ok (reply : List Char)
  | err (desc : List Char)
deriving DecidableEq, Repr

/-- The assistant message appended when the model call settles:
`{text: aiResponse, isUser: false}` on success (ChatBot.tsx line 125),
`{text: "Error: " + description, isUser: false}` on failure (lines
128-131). -/
def assistantMsgOf : ModelOutcome → Message
  | .ok reply => { text := reply, isUser := false }
  | .err desc => { text := "Error: ".toList ++ desc, isUser := false }

/-- Synchronous part of `sendMessage` (ChatBot.tsx lines 111-117), up
to the awaited model call: if the trimmed input is empty, return with
no effect and no request; otherwise append the trimmed user message,
clear the input, set `isLoading`, and issue one model request carrying
`generatePrompt(userMessage)`. The second component is the prompt of
the request issued, if any. -/
def sendMessageStart (st : ChatState) : ChatState × Option (List Char) :=
  if jsTrim st.inputText = [] then
    (st, none)
  else
    let userMessage := jsTrim st.inputText
    ({ st with
        messages := st.messages ++ [{ text := userMessage, isUser := true }],
        inputText := [],
        isLoading := true,
        inFlight := st.inFlight + 1 },
      some (generatePrompt st.foodItems userMessage))

/-- Continuation of `sendMessage` after the model call settles
(ChatBot.tsx lines 119-134): append the reply or the error message,
then the finally block clears `isLoading`. -/
def sendMessageFinish (o : ModelOutcome) (st : ChatState) : ChatState :=
  { st with
      messages := st.messages ++ [assistantMsgOf o],
      isLoading := false,
      inFlight := st.inFlight - 1 }

/-- UI and network events of the chat panel. `pressSend` is a tap on
the send button; `resolve o` is the settling of an in-flight model
request; `setInput s` is the text input's `onChangeText`. -/
inductive ChatEvent where
  | setInput (s : List Char)
  | pressSend
  | resolve (o : ModelOutcome)

/-- One step of the chat panel, also reporting the prompt of any model
request issued by the step. The send button carries
`disabled={isLoading}` (ChatBot.tsx line 199), so a tap while a request
is pending does not invoke `sendMessage` at all. A `resolve` event with
no request in flight cannot occur and is a no-op. -/
def chatStepOut (st : ChatState) : ChatEvent → ChatState × Option (List Char)
  | .setInput s => ({ st with inputText := s }, none)
  | .pressSend => if st.isLoading then (st, none) else sendMessageStart st
  | .resolve o =>
    if st.inFlight = 0 then (st, none) else (sendMessageFinish o st, none)

/-- The state component of `chatStepOut`. -/
def chatStep (st : ChatState) (e : ChatEvent) : ChatState :=
  (chatStepOut st e).1

/-- Chat states reachable from some initial state under any event
interleaving. -/
inductive ReachableChat : ChatState → Prop
  | init (items : List FoodItem) : ReachableChat (initChat items)
  | step (st : ChatState) (e : ChatEvent) :
      ReachableChat st → ReachableChat (chatStep st e)

/-- Tagging of split segments with the bold flag, mirroring
`parts.map((part, partIndex) => ...)` with `isBold = partIndex % 2 === 1`
(ChatBot.tsx lines 45-47); the first argument is the index of the first
segment of the remaining list. -/
def tagBold : Nat → List (List Char) → List (List Char × Bool)
  | _, [] => []
  | i, s :: r => (s, i % 2 == 1) :: tagBold (i + 1) r

/-- Formatting of one line inside `formatResponseText`: split on the
literal `**` marker and mark odd-indexed segments bold (ChatBot.tsx
lines 42-56). -/
def formatLine (line : List Char) : List (List Char × Bool) :=
  tagBold 0 (splitOnPairJS '*' '*' line)

/-- The text-formatting transform `formatResponseText` (ChatBot.tsx
lines 37-63), as the segment structure it renders: one list of
(segment, bold) pairs per newline-separated line. The rendered plain
text re-inserts a newline exactly between consecutive lines
(`joinWithSep`). -/
def formatResponseText (text : List Char) : List (List (List Char × Bool)) :=
  (splitOnCharJS '\n' text).map formatLine

/-- Result of rendering one transcript entry (ChatBot.tsx lines
173-177): the fixed welcome template, or the output of
`formatResponseText` on the message text. -/
inductive RenderedMessage where
  | welcomeTemplate
  | formatted (segments : List (List (List Char × Bool)))
deriving DecidableEq

/-- The render branch for one message: the welcome message goes to the
fixed template, every other message through `formatResponseText`. -/
def renderMessage (m : Message) : RenderedMessage :=
  if m.isWelcomeMessage then
    RenderedMessage.welcomeTemplate
  else
    RenderedMessage.formatted (formatResponseText m.text)

/-!
Helper lemmas.
-/

theorem dropWhile_head?_false {α : Type} {p : α → Bool} {l : List α} {c : α}
    (h : (l.dropWhile p).head? = some c) : p c = false := by
  induction l with
  | nil => simp [List.dropWhile] at h
  | cons x r ih =>
    rw [List.dropWhile_cons] at h
    split at h
    · exact ih h
    · rename_i hx
      simp only [List.head?_cons, Option.some.injEq] at h
      subst h
      simpa using hx

/-- The trimmed text, followed by the reversed trailing whitespace, is
exactly the text with only leading whitespace removed. -/
theorem jsTrim_append (l : List Char) :
    jsTrim l
        ++ ((l.dropWhile jsWhitespace).reverse.takeWhile jsWhitespace).reverse
      = l.dropWhile jsWhitespace := by
  unfold jsTrim
  rw [← List.reverse_append, List.takeWhile_append_dropWhile, List.reverse_reverse]

/-- A nonempty trimmed text does not begin with whitespace. -/
theorem jsTrim_head?_not_ws {l : List Char} {c : Char}
    (h : (jsTrim l).head? = some c) : jsWhitespace c = false := by
  apply dropWhile_head?_false (p := jsWhitespace) (l := l) (c := c)
  rw [← jsTrim_append l]
  cases ht : jsTrim l with
  | nil => rw [ht] at h; simp at h
  | cons a t =>
    rw [ht] at h
    simp only [List.head?_cons, Option.some.injEq] at h
    subst h
    simp

/-- A nonempty trimmed text does not end with whitespace. -/
theorem jsTrim_getLast?_not_ws {l : List Char} {c : Char}
    (h : (jsTrim l).getLast? = some c) : jsWhitespace c = false := by
  unfold jsTrim at h
  rw [List.getLast?_reverse] at h
  exact dropWhile_head?_false h

/-- Ghost invariant relating the in-flight request count to the
`isLoading` flag: a request is pending exactly while `isLoading`. -/
theorem chat_inFlight_eq {st : ChatState} (h : ReachableChat st) :
    st.inFlight = if st.isLoading then 1 else 0 := by
  induction h with
  | init items => simp [initChat]
  | step st e _ ih =>
    cases e with
    | setInput s => simpa [chatStep, chatStepOut] using ih
    | pressSend =>
      by_cases hl : st.isLoading
      · simpa [chatStep, chatStepOut, hl] using ih
      · by_cases ht : jsTrim st.inputText = []
        · simpa [chatStep, chatStepOut, hl, sendMessageStart, ht] using ih
        · rw [if_neg hl] at ih
          simp [chatStep, chatStepOut, hl, sendMessageStart, ht, ih]
    | resolve o =>
      by_cases hf : st.inFlight = 0
      · simpa [chatStep, chatStepOut, hf] using ih
      · have hl : st.isLoading = true := by
          by_contra hne
          rw [if_neg (by simpa using hne)] at ih
          exact hf ih
        rw [if_pos (by simp [hl])] at ih
        simp [chatStep, chatStepOut, hf, sendMessageFinish, ih]

/-- Every step of the chat panel only ever appends to the transcript. -/
theorem chatStep_messages_append (st : ChatState) (e : ChatEvent) :
    ∃ t : List Message, (chatStep st e).messages = st.messages ++ t := by
  cases e with
  | setInput s => exact ⟨[], by simp [chatStep, chatStepOut]⟩
  | pressSend =>
    by_cases hl : st.isLoading
    · exact ⟨[], by simp [chatStep, chatStepOut, hl]⟩
    · by_cases ht : jsTrim st.inputText = []
      · exact ⟨[], by simp [chatStep, chatStepOut, hl, sendMessageStart, ht]⟩
      · exact ⟨[{ text := jsTrim st.inputText, isUser := true }],
          by simp [chatStep, chatStepOut, hl, sendMessageStart, ht]⟩
  | resolve o =>
    by_cases hf : st.inFlight = 0
    · exact ⟨[], by simp [chatStep, chatStepOut, hf]⟩
    · exact ⟨[assistantMsgOf o], by simp [chatStep, chatStepOut, hf, sendMessageFinish]⟩

/-- Every message a step appends is a user or assistant turn, never a
second welcome message; user turns carry trimmed text, assistant turns
carry a reply or an "Error: "-prefixed description. -/
theorem chatStep_appended_shape (st : ChatState) (e : ChatEvent) {t : List Message}
    (h : (chatStep st e).messages = st.messages ++ t) :
    ∀ m ∈ t, m.isWelcomeMessage = false ∧
      (m.isUser = true → m.text = jsTrim st.inputText) := by
  cases e with
  | setInput s =>
    have : t = [] := by
      have h2 : st.messages ++ t = st.messages ++ [] := by
        simpa [chatStep, chatStepOut] using h.symm
      exact (List.append_cancel_left h2)
    simp [this]
  | pressSend =>
    by_cases hl : st.isLoading
    · have : t = [] := by
        have h2 : st.messages ++ t = st.messages ++ [] := by
          simpa [chatStep, chatStepOut, hl] using h.symm
        exact (List.append_cancel_left h2)
      simp [this]
    · by_cases ht : jsTrim st.inputText = []
      · have : t = [] := by
          have h2 : st.messages ++ t = st.messages ++ [] := by
            simpa [chatStep, chatStepOut, hl, sendMessageStart, ht] using h.symm
          exact (List.append_cancel_left h2)
        simp [this]
      · have : t = [{ text := jsTrim st.inputText, isUser := true }] := by
          have h2 : st.messages ++ t
              = st.messages ++ [{ text := jsTrim st.inputText, isUser := true }] := by
            simpa [chatStep, chatStepOut, hl, sendMessageStart, ht] using h.symm
          exact (List.append_cancel_left h2)
        simp [this]
  | resolve o =>
    by_cases hf : st.inFlight = 0
    · have : t = [] := by
        have h2 : st.messages ++ t = st.messages ++ [] := by
          simpa [chatStep, chatStepOut, hf] using h.symm
        exact (List.append_cancel_left h2)
      simp [this]
    · have : t = [assistantMsgOf o] := by
        have h2 : st.messages ++ t = st.messages ++ [assistantMsgOf o] := by
          simpa [chatStep, chatStepOut, hf, sendMessageFinish] using h.symm
        exact (List.append_cancel_left h2)
      subst this
      intro m hm
      rw [List.mem_singleton] at hm
      subst hm
      cases o <;> simp [assistantMsgOf]

/-- Structural transcript invariant: the welcome message is the first
entry, every later entry is a non-welcome turn, and every user turn
neither begins nor ends with whitespace. -/
theorem chat_transcript_inv {st : ChatState} (h : ReachableChat st) :
    st.messages.head? = some welcomeMsg ∧
    (∀ m ∈ st.messages.tail, m.isWelcomeMessage = false) ∧
    (∀ m ∈ st.messages, m.isUser = true →
      (∀ c, m.text.head? = some c → jsWhitespace c = false) ∧
      (∀ c, m.text.getLast? = some c → jsWhitespace c = false)) := by
  induction h with
  | init items =>
    refine ⟨by simp [initChat], by simp [initChat], ?_⟩
    intro m hm
    simp only [initChat, List.mem_singleton] at hm
    subst hm
    simp [welcomeMsg]
  | step st e _ ih =>
    obtain ⟨ihHead, ihTail, ihUser⟩ := ih
    obtain ⟨t, ht⟩ := chatStep_messages_append st e
    have hshape := chatStep_appended_shape st e ht
    obtain ⟨w, rest, hm⟩ : ∃ w rest, st.messages = w :: rest := by
      cases hmsg : st.messages with
      | nil => rw [hmsg] at ihHead; simp at ihHead
      | cons w rest => exact ⟨w, rest, rfl⟩
    have hw : w = welcomeMsg := by
      rw [hm] at ihHead; simpa using ihHead
    refine ⟨?_, ?_, ?_⟩
    · rw [ht, hm, hw]; simp
    · intro m hmem
      rw [ht, hm] at hmem
      simp only [List.cons_append, List.tail_cons, List.mem_append] at hmem
      rcases hmem with hmem | hmem
      · exact ihTail m (by rw [hm]; simpa using hmem)
      · exact (hshape m hmem).1
    · intro m hmem hu
      rw [ht, List.mem_append] at hmem
      rcases hmem with hmem | hmem
      · exact ihUser m hmem hu
      · have htext := (hshape m hmem).2 hu
        rw [htext]
        exact ⟨fun c hc => jsTrim_head?_not_ws hc,
               fun c hc => jsTrim_getLast?_not_ws hc⟩

/-- Flag invariant of the list screen: the full-screen loading flag and
the pull-to-refresh flag are never set together. -/
theorem list_flags_inv {st : ListState} (h : ReachableList st) :
    ¬(st.loading = true ∧ st.refreshing = true) := by
  induction h with
  | init => simp [initList]
  | step st e _ ih =>
    cases e with
    | complete r => cases r <;> simp [listStep, fetchFoodItems]
    | pullToRefresh =>
      by_cases hl : st.loading = true
      · have hr : st.refreshing = false := by
          by_contra hc
          exact ih ⟨hl, by simp at hc; exact hc⟩
        simp [listStep, hl, hr]
      · have hl' : st.loading = false := by simpa using hl
        by_cases hg : st.loading && !st.refreshing
        · simpa [listStep, hg] using ih
        · simp [listStep, hg, onRefresh, hl']
    | retryTap => simpa [listStep] using ih

/-- Indexing formula for the bold-tagging of split segments. -/
theorem tagBold_get? (parts : List (List Char)) (k i : Nat) :
    (tagBold k parts).get? i
      = (parts.get? i).map (fun s => (s, (k + i) % 2 == 1)) := by
  induction parts generalizing k i with
  | nil => simp [tagBold]
  | cons s r ih =>
    cases i with
    | zero => simp [tagBold]
    | succ j =>
      simp only [tagBold, List.get?_cons_succ, ih (k + 1) j]
      have : k + 1 + j = k + (j + 1) := by omega
      rw [this]

/-!
Claim theorems.
-/

/-- Claim C1 (code bug evidence). The code never clears the error
field: a successful fetch leaves `error` exactly as it was (there is no
`setError(null)` on any path of `fetchFoodItems`), starting a refresh
leaves `error` unchanged as well, and concretely a failed fetch
followed by a successful one still shows the failure message —
contradicting the specified clearing of the error at fetch start and on
success. -/
theorem c1_fetch_never_clears_error :
    (∀ (st : ListState) (data : List FoodItem),
        (fetchFoodItems (.success data) st).error = st.error) ∧
    (∀ st : ListState, (onRefresh st).error = st.error) ∧
    (runFetches [.failure, .success []]).error = some fetchFailMsg := by
  refine ⟨fun st data => rfl, fun st => rfl, ?_⟩
  rfl

/-- Claim C2. While a model request is pending, a tap on the send
button is a complete no-op (the button is disabled) and issues no
request; in every reachable chat state at most one model request is in
flight; and a completed submit extends the transcript by exactly the
user/assistant pair, never interleaved with another pair. -/
theorem c2_single_inflight :
    (∀ st : ChatState, st.isLoading = true →
        chatStepOut st ChatEvent.pressSend = (st, none)) ∧
    (∀ st : ChatState, ReachableChat st → st.inFlight ≤ 1) ∧
    (∀ (st : ChatState) (o : ModelOutcome),
        st.isLoading = false → jsTrim st.inputText ≠ [] →
        (chatStep (chatStep st ChatEvent.pressSend) (ChatEvent.resolve o)).messages
          = st.messages
              ++ [{ text := jsTrim st.inputText, isUser := true }, assistantMsgOf o]) := by
  refine ⟨?_, ?_, ?_⟩
  · intro st hl
    simp [chatStepOut, hl]
  · intro st h
    rw [chat_inFlight_eq h]
    split <;> omega
  · intro st o hl ht
    simp [chatStep, chatStepOut, hl, sendMessageStart, ht, sendMessageFinish]

/-- Witness for C2 at a concrete pending state and a concrete
ready-to-send state. -/
theorem c2_single_inflight_witness :
    (chatStepOut { initChat [] with isLoading := true } ChatEvent.pressSend
        = ({ initChat [] with isLoading := true }, none)) ∧
    (initChat []).inFlight ≤ 1 ∧
    (chatStep (chatStep { initChat [] with inputText := "hi".toList }
          ChatEvent.pressSend)
        (ChatEvent.resolve (ModelOutcome.ok "ok".toList))).messages
      = (initChat []).messages
          ++ [{ text := jsTrim "hi".toList, isUser := true },
              assistantMsgOf (ModelOutcome.ok "ok".toList)] :=
  ⟨c2_single_inflight.1 _ rfl,
   c2_single_inflight.2.1 _ (ReachableChat.init []),
   c2_single_inflight.2.2 { initChat [] with inputText := "hi".toList }
     (ModelOutcome.ok "ok".toList) rfl (by decide)⟩

/-- Claim C3, counterexample to the stated form. The claim says the
sequence is empty after a failure only if the failing fetch was the
very first load; but when a successful fetch that returned an empty
array comes first, a later failing fetch also leaves the sequence
empty. -/
theorem c3_counterexample :
    ¬ (∀ pre : List FetchResult,
        (runFetches (pre ++ [FetchResult.failure])).items = [] → pre = []) := by
  intro h
  have := h [FetchResult.success []] (by decide)
  simp at this

/-- Claim C3 as amended. A failing fetch leaves the previously held
sequence completely unchanged (in particular it never empties a
non-empty sequence) and sets the user-displayable error message; the
sequence is empty after a failure exactly when it was empty before the
failing fetch — which holds after a very first load's failure, the
sequence starting empty. -/
theorem c3_failure_preserves_items :
    ∀ st : ListState,
      (fetchFoodItems FetchResult.failure st).items = st.items ∧
      (fetchFoodItems FetchResult.failure st).error = some fetchFailMsg ∧
      ((fetchFoodItems FetchResult.failure st).items = [] ↔ st.items = []) ∧
      initList.items = [] := by
  intro st
  exact ⟨rfl, rfl, Iff.rfl, rfl⟩

/-- Claim C4, counterexample to the stated form. The claim asserts
sortedness and identifier uniqueness of the stored sequence for every
array the data service may return; but the code stores the response
verbatim, so a response arriving out of order (or with duplicate
identifiers) is stored out of order. -/
theorem c4_counterexample :
    ¬ (∀ (data : List FoodItem) (st : ListState),
        sortedByIdAsc (fetchFoodItems (FetchResult.success data) st).items = true ∧
        noDupIds (fetchFoodItems (FetchResult.success data) st).items = true) := by
  intro h
  have := h
    [{ id := 2, name := [], price := 0, rating := 0, veg := [],
       calories := 0, image_url := [] },
     { id := 1, name := [], price := 0, rating := 0, veg := [],
       calories := 0, image_url := [] }]
    initList
  revert this
  decide

/-- Claim C4 as amended. The code performs no client-side sorting or
deduplication: after a successful fetch the stored sequence is the
service response verbatim, so it is sorted by identifier ascending with
no duplicate identifiers exactly when the response is — a property the
code delegates to the order-by-id query and the service's schema. -/
theorem c4_success_stores_verbatim :
    ∀ (st : ListState) (data : List FoodItem),
      (fetchFoodItems (FetchResult.success data) st).items = data ∧
      (sortedByIdAsc data = true →
        sortedByIdAsc (fetchFoodItems (FetchResult.success data) st).items = true) ∧
      (noDupIds data = true →
        noDupIds (fetchFoodItems (FetchResult.success data) st).items = true) := by
  intro st data
  exact ⟨rfl, fun h => h, fun h => h⟩

/-- Witness for C4 at a concrete sorted, duplicate-free response. -/
theorem c4_success_stores_verbatim_witness :
    (fetchFoodItems (FetchResult.success
        [{ id := 1, name := [], price := 0, rating := 0, veg := [],
           calories := 0, image_url := [] },
         { id := 2, name := [], price := 0, rating := 0, veg := [],
           calories := 0, image_url := [] }]) initList).items
      = [{ id := 1, name := [], price := 0, rating := 0, veg := [],
           calories := 0, image_url := [] },
         { id := 2, name := [], price := 0, rating := 0, veg := [],
           calories := 0, image_url := [] }] ∧
    sortedByIdAsc (fetchFoodItems (FetchResult.success
        [{ id := 1, name := [], price := 0, rating := 0, veg := [],
           calories := 0, image_url := [] },
         { id := 2, name := [], price := 0, rating := 0, veg := [],
           calories := 0, image_url := [] }]) initList).items = true :=
  ⟨(c4_success_stores_verbatim initList _).1,
   (c4_success_stores_verbatim initList _).2.1 (by decide)⟩

/-- Claim C5. Submitting the text "hello" when the transcript holds
exactly the welcome message appends exactly the user message (isUser
true) followed by one assistant message whose text is the model reply
on success and the failure description behind "Error: " on failure;
nothing else in the transcript changes. -/
theorem c5_one_turn_pair :
    ∀ (items : List FoodItem) (o : ModelOutcome),
      (chatStep (chatStep (chatStep (initChat items)
            (ChatEvent.setInput "hello".toList))
          ChatEvent.pressSend)
        (ChatEvent.resolve o)).messages
        = [welcomeMsg,
           { text := "hello".toList, isUser := true },
           assistantMsgOf o] := by
  intro items o
  have htrim : jsTrim ['h', 'e', 'l', 'l', 'o'] = ['h', 'e', 'l', 'l', 'o'] := by
    decide
  have hne : jsTrim ['h', 'e', 'l', 'l', 'o'] ≠ [] := by decide
  simp [chatStep, chatStepOut, initChat, sendMessageStart, sendMessageFinish,
    htrim, hne]

/-- Claim C6. The text-formatting transform splits on newline, splits
each line on the literal two-character marker, marks odd-indexed
segments as emphasized and even-indexed ones as plain, and preserves
newlines on rejoin; concretely, the bold-marked price line yields the
three specified segments with flags [false, true, false], any input
without the marker yields one plain segment equal to the input, and the
four-part input yields four segments alternating plain/bold starting
plain. -/
theorem c6_format_transform :
    (formatLine "**Pizza** is ₹10".toList
        = [("".toList, false), ("Pizza".toList, true), (" is ₹10".toList, false)]) ∧
    (∀ line : List Char, hasPairMarker '*' '*' line = false →
        formatLine line = [(line, false)]) ∧
    (formatLine "a**b**c**d".toList
        = [("a".toList, false), ("b".toList, true),
           ("c".toList, false), ("d".toList, true)]) ∧
    (∀ (line : List Char) (i : Nat),
        (formatLine line).get? i
          = ((splitOnPairJS '*' '*' line).get? i).map (fun s => (s, i % 2 == 1))) ∧
    (∀ text : List Char,
        formatResponseText text = (splitOnCharJS '\n' text).map formatLine ∧
        joinWithSep ['\n'] (splitOnCharJS '\n' text) = text) := by
  refine ⟨by decide, ?_, by decide, ?_, ?_⟩
  · intro line h
    simp [formatLine, splitOnPairJS_of_no_marker '*' '*' line h, tagBold]
  · intro line i
    simpa [formatLine] using tagBold_get? (splitOnPairJS '*' '*' line) 0 i
  · intro text
    exact ⟨rfl, joinWithSep_splitOnCharJS '\n' text⟩

/-- Witness for C6 at a concrete marker-free input. -/
theorem c6_format_transform_witness :
    hasPairMarker '*' '*' "no markers here".toList = false ∧
    formatLine "no markers here".toList = [("no markers here".toList, false)] :=
  ⟨by decide, c6_format_transform.2.1 _ (by decide)⟩

/-- Claim C7. Submitting while the trimmed input is empty is a
complete no-op: the state (transcript included) is unchanged and no
model request is issued. -/
theorem c7_empty_submit_noop :
    ∀ st : ChatState, jsTrim st.inputText = [] →
      chatStepOut st ChatEvent.pressSend = (st, none) := by
  intro st h
  by_cases hl : st.isLoading
  · simp [chatStepOut, hl]
  · simp [chatStepOut, hl, sendMessageStart, h]

/-- Witness for C7 at a whitespace-only input. -/
theorem c7_empty_submit_noop_witness :
    jsTrim "   ".toList = [] ∧
    chatStepOut { initChat [] with inputText := "   ".toList } ChatEvent.pressSend
      = ({ initChat [] with inputText := "   ".toList }, none) :=
  ⟨by decide, c7_empty_submit_noop _ (by decide)⟩

/-- Claim C8. In every reachable state of the list screen, the
full-screen loading flag and the pull-to-refresh flag are never both
set, under every interleaving of load completions, pull-to-refresh and
retry events. -/
theorem c8_flags_mutex :
    ∀ st : ListState, ReachableList st →
      ¬(st.loading = true ∧ st.refreshing = true) :=
  fun _ h => list_flags_inv h

/-- Witness for C8 at the initial state. -/
theorem c8_flags_mutex_witness :
    ¬(initList.loading = true ∧ initList.refreshing = true) :=
  c8_flags_mutex initList ReachableList.init

/-- Claim C9. In every reachable transcript the first entry is the
synthetic welcome message (author not the user, welcome flag set), no
later entry carries the welcome flag, every step only appends to the
transcript (no reordering or deletion), and rendering sends the welcome
message to the fixed template while every non-welcome message goes
through the marker-splitting transform. -/
theorem c9_welcome_invariant :
    (∀ st : ChatState, ReachableChat st →
        st.messages.head? = some welcomeMsg ∧
        ∀ m ∈ st.messages.tail, m.isWelcomeMessage = false) ∧
    (∀ (st : ChatState) (e : ChatEvent),
        ∃ t : List Message, (chatStep st e).messages = st.messages ++ t) ∧
    renderMessage welcomeMsg = RenderedMessage.welcomeTemplate ∧
    (∀ m : Message, m.isWelcomeMessage = false →
        renderMessage m = RenderedMessage.formatted (formatResponseText m.text)) := by
  refine ⟨?_, chatStep_messages_append, by simp [renderMessage, welcomeMsg], ?_⟩
  · intro st h
    exact ⟨(chat_transcript_inv h).1, (chat_transcript_inv h).2.1⟩
  · intro m hm
    simp [renderMessage, hm]

/-- Witness for C9 at the initial transcript and a concrete non-welcome
message. -/
theorem c9_welcome_invariant_witness :
    (initChat []).messages.head? = some welcomeMsg ∧
    renderMessage { text := "x".toList, isUser := false }
      = RenderedMessage.formatted (formatResponseText "x".toList) :=
  ⟨(c9_welcome_invariant.1 (initChat []) (ReachableChat.init [])).1,
   c9_welcome_invariant.2.2.2 { text := "x".toList, isUser := false } rfl⟩

/-- Claim C10. An accepted submit appends a user message whose text is
exactly the trimmed input and issues a request whose prompt embeds that
same trimmed text (the prompt is `generatePrompt` applied to it, and
the trimmed text occurs verbatim inside the prompt); consequently, in
every reachable transcript no stored user message begins or ends with
whitespace. -/
theorem c10_trimmed_user_text :
    (∀ st : ChatState, st.isLoading = false → jsTrim st.inputText ≠ [] →
        (chatStep st ChatEvent.pressSend).messages
            = st.messages ++ [{ text := jsTrim st.inputText, isUser := true }] ∧
        (chatStepOut st ChatEvent.pressSend).2
            = some (generatePrompt st.foodItems (jsTrim st.inputText))) ∧
    (∀ st : ChatState, ReachableChat st →
        ∀ m ∈ st.messages, m.isUser = true →
          (∀ c, m.text.head? = some c → jsWhitespace c = false) ∧
          (∀ c, m.text.getLast? = some c → jsWhitespace c = false)) ∧
    (∀ (items : List FoodItem) (u : List Char),
        ∃ pre post : List Char, generatePrompt items u = pre ++ u ++ post) := by
  refine ⟨?_, ?_, ?_⟩
  · intro st hl ht
    constructor
    · simp [chatStep, chatStepOut, hl, sendMessageStart, ht]
    · simp [chatStepOut, hl, sendMessageStart, ht]
  · intro st h
    exact (chat_transcript_inv h).2.2
  · intro items u
    refine ⟨"You are a helpful food assistant. Here is the list of available food items:\n".toList
        ++ joinWithSep ['\n'] (items.map serializeItem)
        ++ "\n\nUser question: ".toList,
      "\n\nPlease help the user find the best food items based on their preferences. Consider price, rating, whether it\x27s veg/non-veg, and calories.".toList,
      ?_⟩
    simp [generatePrompt, List.append_assoc]

/-- Witness for C10 at a concrete padded input. -/
theorem c10_trimmed_user_text_witness :
    (chatStep { initChat [] with inputText := " hi ".toList }
          ChatEvent.pressSend).messages
        = ({ initChat [] with inputText := " hi ".toList } : ChatState).messages
            ++ [{ text := jsTrim " hi ".toList, isUser := true }] ∧
    ∃ pre post : List Char, generatePrompt [] "hi".toList = pre ++ "hi".toList ++ post :=
  ⟨(c10_trimmed_user_text.1 { initChat [] with inputText := " hi ".toList }
      rfl (by decide)).1,
   c10_trimmed_user_text.2.2 [] "hi".toList⟩
